import Mathlib

/-!
Shallow embedding of `src/jquery.tappable.js` (jquery.tappable.js v0.2).

The plugin `$.fn.tappable(options)` parses `options` (a function, an object,
or anything else), then registers DOM listeners:

* touch-capable runtime: `touchstart`, `touchend`, `click` (preventDefault),
  and — only when `cancelOnMove` is truthy — `touchmove`;
* otherwise: a single `click` listener, registered only when `callback`
  is a function.

Per-element state is the presence of the CSS classes `touch-started` and
`touched`.  The `touchstart` handler schedules, via `window.setTimeout`,
a deferred action that adds `touched` if `touch-started` is still present.
We model a run of the single-threaded event loop as a list of events
(`Ev`); `Ev.timerFire` is the event-loop step in which one such scheduled
deferred action runs.  JS values appearing in the options record are
modelled by `FieldVal` (note: JS `null` has `typeof null == 'object'`, so
it is not among the "neither function nor object" values and is not
modelled; `NaN` likewise does not arise in the claims).  Calls of the
user-supplied `onlyIf` predicate are modelled by an oracle bit carried on
the event that triggers the call, since `onlyIf` is external code whose
result may change between calls; the built-in default `onlyIf` always
returns `true`.

`TapState.invocations` records each callback invocation as the pair
(element, id of the triggering event) — the source invokes
`callback.call(el, event)`, i.e. passes the element (as `this`) and the
triggering event.  `TapState.prevented` records the click events whose
default action was suppressed, and `TapState.touchedApplied` counts how
many times the deferred action actually added the `touched` class.
-/

namespace Tappable

/-- A JavaScript value that can sit in a field of the options record. -/
inductive FieldVal where
  | undef
  | jsBool (b : Bool)
  | jsNum (n : Int)
  | jsStr (s : String)
  | func (id : Nat)
deriving DecidableEq, Repr

/-- JS `typeof` on a field value. -/
def typeofField : FieldVal → String
  | .undef => "undefined"
  | .jsBool _ => "boolean"
  | .jsNum _ => "number"
  | .jsStr _ => "string"
  | .func _ => "function"

/-- The source's callability test `typeof callback == 'function'`. -/
def isFunc (v : FieldVal) : Bool := typeofField v = "function"

/-- JS truthiness of a field value (used by `if (cancelOnMove)`). -/
def truthy : FieldVal → Bool
  | .undef => false
  | .jsBool b => b
  | .jsNum n => n != 0
  | .jsStr s => s != ""
  | .func _ => true

/-- The options record (`case 'object'` of the source's switch); a field
the caller omitted reads as `undefined` in JS, hence `FieldVal.undef`. -/
structure OptObj where
  callback : FieldVal
  cancelOnMove : FieldVal
  onlyIf : FieldVal
  touchDelay : FieldVal
  selector : FieldVal
deriving DecidableEq, Repr

/-- The `options` argument of `$.fn.tappable`. -/
inductive JSOptions where
  | undef
  | func (id : Nat)
  | obj (o : OptObj)
  | jsStr (s : String)
  | jsNum (n : Int)
  | jsBool (b : Bool)
deriving DecidableEq, Repr

/-- JS `typeof options`, the scrutinee of the source's switch. -/
def typeofOptions : JSOptions → String
  | .undef => "undefined"
  | .func _ => "function"
  | .obj _ => "object"
  | .jsStr _ => "string"
  | .jsNum _ => "number"
  | .jsBool _ => "boolean"

/-- The `onlyIf` variable: either the built-in default
`function () { return true }` or a caller-supplied value. -/
inductive OnlyIfVal where
  | defaultFn
  | custom (v : FieldVal)
deriving DecidableEq, Repr

/-- The local variables of one `$.fn.tappable` call after the options
switch has run: the configuration captured by the listener closures. -/
structure Binding where
  cancelOnMove : FieldVal
  onlyIf : OnlyIfVal
  touchDelay : FieldVal
  callback : FieldVal
  selector : FieldVal
deriving DecidableEq, Repr

/-- The variable initialisation at the top of `$.fn.tappable`:
`cancelOnMove = true`, `onlyIf = function () { return true }`,
`touchDelay = 0`, `callback` and `selector` undefined. -/
def defaultBinding : Binding :=
  { cancelOnMove := .jsBool true
    onlyIf := .defaultFn
    touchDelay := .jsNum 0
    callback := .undef
    selector := .undef }

/-- The `switch (typeof options)` of the source: a function becomes the
callback; an object's defined fields override the defaults; any other
value leaves every default in place. -/
def tappableBinding (options : JSOptions) : Binding :=
  match options with
  | .func id => { defaultBinding with callback := .func id }
  | .obj o =>
      { callback := o.callback
        cancelOnMove :=
          if typeofField o.cancelOnMove != "undefined" then o.cancelOnMove
          else defaultBinding.cancelOnMove
        onlyIf :=
          if typeofField o.onlyIf != "undefined" then .custom o.onlyIf
          else defaultBinding.onlyIf
        touchDelay :=
          if typeofField o.touchDelay != "undefined" then o.touchDelay
          else defaultBinding.touchDelay
        selector :=
          if typeofField o.selector != "undefined" then o.selector
          else defaultBinding.selector }
  | _ => defaultBinding

/-- Result of calling `onlyIf(el)`: the default returns `true`; a
caller-supplied predicate is external code, so its result at this
particular call is an oracle bit carried by the event. -/
def callOnlyIf (b : Binding) (oracle : Bool) : Bool :=
  match b.onlyIf with
  | .defaultFn => true
  | .custom _ => oracle

/-- Which listeners one `tappable` call registers. -/
inductive ListenerKind where
  | touchstart
  | touchend
  | click
  | touchmove
deriving DecidableEq, Repr

/-- Listener registration: on a touch-capable runtime `touchstart`,
`touchend`, `click`, plus `touchmove` when `cancelOnMove` is truthy;
otherwise a single `click` listener, only when `callback` is a function. -/
def tappableListeners (touchSupported : Bool) (b : Binding) : List ListenerKind :=
  if touchSupported then
    [.touchstart, .touchend, .click] ++ (if truthy b.cancelOnMove then [.touchmove] else [])
  else if isFunc b.callback then [.click] else []

/-- One event-loop step.  The `Bool` on `touchstart`, `touchend` and
`click` is the oracle for the `onlyIf` call the handler may make.
`timerFire` is the running of one deferred action scheduled by a previous
`touchstart` (the source never cancels a timer; a deferred action whose
flag has been cleared is a no-op). -/
inductive Ev where
  | touchstart (onlyIfNow : Bool)
  | touchend (onlyIfNow : Bool)
  | touchmove
  | timerFire
  | click (onlyIfNow : Bool)
deriving DecidableEq, Repr

/-- Observable per-element state plus the history the claims talk about. -/
structure TapState where
  touchStarted : Bool
  touched : Bool
  invocations : List (Nat × Nat)
  prevented : List Nat
  touchedApplied : Nat
deriving DecidableEq, Repr

/-- State before any event: neither class present, nothing recorded. -/
def initState : TapState :=
  { touchStarted := false
    touched := false
    invocations := []
    prevented := []
    touchedApplied := 0 }

/-- `fireCallback(el, event)`: invoke the callback only when it is a
function and `onlyIf(el)` is truthy now, passing the element and the
triggering event (`callback.call(el, event)`). -/
def fireCallback (b : Binding) (el : Nat) (evId : Nat) (onlyIfNow : Bool)
    (invocations : List (Nat × Nat)) : List (Nat × Nat) :=
  if isFunc b.callback && callOnlyIf b onlyIfNow then invocations ++ [(el, evId)]
  else invocations

/-- The `touchstart` handler: when `onlyIf(this)` passes, add
`touch-started` (the accompanying `setTimeout` call is modelled by a later
`Ev.timerFire` step). -/
def touchstartHandler (b : Binding) (onlyIfNow : Bool) (s : TapState) : TapState :=
  if callOnlyIf b onlyIfNow then { s with touchStarted := true } else s

/-- The deferred action scheduled by `touchstart`: if the element still
has `touch-started`, add `touched`; otherwise do nothing. -/
def deferredTouched (s : TapState) : TapState :=
  if s.touchStarted then
    { s with touched := true, touchedApplied := s.touchedApplied + 1 }
  else s

/-- The `touchend` handler: when the element has `touch-started`, remove
`touched` and `touch-started`, then `fireCallback(that, event)`; otherwise
do nothing. -/
def touchendHandler (b : Binding) (el : Nat) (evId : Nat) (onlyIfNow : Bool)
    (s : TapState) : TapState :=
  if s.touchStarted then
    { s with
        touched := false
        touchStarted := false
        invocations := fireCallback b el evId onlyIfNow s.invocations }
  else s

/-- The touch-path `click` handler: `event.preventDefault()` and nothing
else. -/
def clickHandlerTouch (evId : Nat) (s : TapState) : TapState :=
  { s with prevented := s.prevented ++ [evId] }

/-- The `touchmove` handler: remove `touched` and `touch-started`. -/
def touchmoveHandler (s : TapState) : TapState :=
  { s with touched := false, touchStarted := false }

/-- The fallback `click` handler: when `onlyIf(this)` passes, invoke the
callback with the element and the event.  (It is only registered when the
callback is a function.) -/
def clickHandlerFallback (b : Binding) (el : Nat) (evId : Nat) (onlyIfNow : Bool)
    (s : TapState) : TapState :=
  if callOnlyIf b onlyIfNow then { s with invocations := s.invocations ++ [(el, evId)] }
  else s

/-- One step of the touch-capable path: dispatch the event to the
registered handler.  `touchmove` only has an effect when the `touchmove`
listener was registered, i.e. when `cancelOnMove` is truthy. -/
def stepTouch (b : Binding) (el : Nat) (s : TapState) (evId : Nat) : Ev → TapState
  | .touchstart p => touchstartHandler b p s
  | .touchend p => touchendHandler b el evId p s
  | .touchmove => if truthy b.cancelOnMove then touchmoveHandler s else s
  | .timerFire => deferredTouched s
  | .click _ => clickHandlerTouch evId s

/-- One step of the fallback (non-touch) path: only a `click` listener
exists, and only when the callback is a function; touch events never
occur on this runtime and no other listener is registered. -/
def stepFallback (b : Binding) (el : Nat) (s : TapState) (evId : Nat) : Ev → TapState
  | .click p => if isFunc b.callback then clickHandlerFallback b el evId p s else s
  | _ => s

/-- Run the touch-capable machine over a list of events, numbering events
from `i`. -/
def runTouchFrom (b : Binding) (el : Nat) : TapState → Nat → List Ev → TapState
  | s, _, [] => s
  | s, i, e :: es => runTouchFrom b el (stepTouch b el s i e) (i + 1) es

/-- Run the touch-capable machine from the initial state. -/
def runTouch (b : Binding) (el : Nat) (es : List Ev) : TapState :=
  runTouchFrom b el initState 0 es

/-- Run the fallback machine over a list of events, numbering from `i`. -/
def runFallbackFrom (b : Binding) (el : Nat) : TapState → Nat → List Ev → TapState
  | s, _, [] => s
  | s, i, e :: es => runFallbackFrom b el (stepFallback b el s i e) (i + 1) es

/-- Run the fallback machine from the initial state. -/
def runFallback (b : Binding) (el : Nat) (es : List Ev) : TapState :=
  runFallbackFrom b el initState 0 es

/-- A list of events consisting only of deferred-action firings. -/
def timersOnly (l : List Ev) : Prop := ∀ e ∈ l, e = Ev.timerFire

/-- A list of events containing no `touchstart`. -/
def noTouchstart (l : List Ev) : Prop := ∀ e ∈ l, ∀ p, e ≠ Ev.touchstart p

instance (l : List Ev) : Decidable (timersOnly l) := by
  unfold timersOnly; infer_instance

instance (l : List Ev) : Decidable (noTouchstart l) := by
  unfold noTouchstart
  refine List.decidableBAll _ l

/-- A binding with a callable callback and everything else at default,
used to exercise the theorems on concrete inputs. -/
def cbBinding : Binding := { defaultBinding with callback := .func 0 }

/-- Like `cbBinding` but with `cancelOnMove` set falsy. -/
def cbBindingKeepMove : Binding := { cbBinding with cancelOnMove := .jsBool false }

/-! ### Helper lemmas about runs -/

lemma runTouchFrom_append (b : Binding) (el : Nat) (l1 l2 : List Ev) :
    ∀ (s : TapState) (i : Nat),
      runTouchFrom b el s i (l1 ++ l2)
        = runTouchFrom b el (runTouchFrom b el s i l1) (i + l1.length) l2 := by
  induction l1 with
  | nil => intro s i; simp [runTouchFrom]
  | cons e es ih =>
      intro s i
      simp only [List.cons_append, runTouchFrom, List.length_cons, List.append_eq]
      rw [ih]
      ring_nf

/-- A run consisting only of deferred-action firings preserves
`touch-started`, the invocation log and the prevented log; when
`touch-started` is absent it also preserves `touched` and the count of
`touched` applications. -/
lemma runTouchFrom_timers (b : Binding) (el : Nat) :
    ∀ (t : List Ev), timersOnly t → ∀ (s : TapState) (i : Nat),
      (runTouchFrom b el s i t).touchStarted = s.touchStarted
      ∧ (runTouchFrom b el s i t).invocations = s.invocations
      ∧ (runTouchFrom b el s i t).prevented = s.prevented
      ∧ (s.touchStarted = false →
          (runTouchFrom b el s i t).touched = s.touched
          ∧ (runTouchFrom b el s i t).touchedApplied = s.touchedApplied) := by
  intro t
  induction t with
  | nil => intro _ s i; exact ⟨rfl, rfl, rfl, fun _ => ⟨rfl, rfl⟩⟩
  | cons e es ih =>
      intro ht s i
      have he : e = Ev.timerFire := ht e (List.mem_cons_self e es)
      have hes : timersOnly es := fun x hx => ht x (List.mem_cons_of_mem e hx)
      subst he
      simp only [runTouchFrom, stepTouch]
      by_cases hts : s.touchStarted
      · rcases ih hes (deferredTouched s) (i + 1) with ⟨h1, h2, h3, _⟩
        refine ⟨?_, ?_, ?_, ?_⟩
        · rw [h1]; simp [deferredTouched, hts]
        · rw [h2]; simp [deferredTouched, hts]
        · rw [h3]; simp [deferredTouched, hts]
        · intro hfalse; rw [hts] at hfalse; cases hfalse
      · have hts' : s.touchStarted = false := by
          cases hst : s.touchStarted
          · rfl
          · exact absurd hst hts
        have hd : deferredTouched s = s := by simp [deferredTouched, hts']
        rw [hd]
        rcases ih hes s (i + 1) with ⟨h1, h2, h3, h4⟩
        exact ⟨h1, h2, h3, fun _ => h4 hts'⟩

/-- From a state with both classes absent, a run containing no
`touchstart` keeps both classes absent, never invokes the callback and
never applies `touched`. -/
lemma runTouchFrom_noTouchstart (b : Binding) (el : Nat) :
    ∀ (l : List Ev), noTouchstart l → ∀ (s : TapState) (i : Nat),
      s.touchStarted = false → s.touched = false →
      (runTouchFrom b el s i l).touchStarted = false
      ∧ (runTouchFrom b el s i l).touched = false
      ∧ (runTouchFrom b el s i l).invocations = s.invocations
      ∧ (runTouchFrom b el s i l).touchedApplied = s.touchedApplied := by
  intro l
  induction l with
  | nil => intro _ s i h1 h2; exact ⟨h1, h2, rfl, rfl⟩
  | cons e es ih =>
      intro hl s i h1 h2
      have hes : noTouchstart es := fun x hx => hl x (List.mem_cons_of_mem e hx)
      simp only [runTouchFrom]
      cases e with
      | touchstart p =>
          exact absurd rfl (hl (Ev.touchstart p) (List.mem_cons_self _ es) p)
      | touchend p =>
          have hstep : stepTouch b el s i (Ev.touchend p) = s := by
            simp [stepTouch, touchendHandler, h1]
          rw [hstep]
          exact ih hes s (i + 1) h1 h2
      | touchmove =>
          by_cases hc : truthy b.cancelOnMove
          · have hstep : stepTouch b el s i Ev.touchmove = touchmoveHandler s := by
              simp [stepTouch, hc]
            rw [hstep]
            have := ih hes (touchmoveHandler s) (i + 1) (by simp [touchmoveHandler])
              (by simp [touchmoveHandler])
            simpa [touchmoveHandler] using this
          · have hstep : stepTouch b el s i Ev.touchmove = s := by
              simp [stepTouch, hc]
            rw [hstep]
            exact ih hes s (i + 1) h1 h2
      | timerFire =>
          have hstep : stepTouch b el s i Ev.timerFire = s := by
            simp [stepTouch, deferredTouched, h1]
          rw [hstep]
          exact ih hes s (i + 1) h1 h2
      | click p =>
          have := ih hes (clickHandlerTouch i s) (i + 1)
            (by simp [clickHandlerTouch, h1]) (by simp [clickHandlerTouch, h2])
          simpa [stepTouch, clickHandlerTouch] using this

/-- One step changes the class flags and the `touched`-application count
in a way that does not depend on the configured callback: two bindings
agreeing on `cancelOnMove` and `onlyIf` step flag-equal states to
flag-equal states. -/
lemma stepTouch_flags_congr (b b' : Binding) (el : Nat)
    (hcm : b.cancelOnMove = b'.cancelOnMove) (hoi : b.onlyIf = b'.onlyIf)
    (s s' : TapState) (i : Nat) (e : Ev)
    (h1 : s.touchStarted = s'.touchStarted) (h2 : s.touched = s'.touched)
    (h3 : s.touchedApplied = s'.touchedApplied) :
    (stepTouch b el s i e).touchStarted = (stepTouch b' el s' i e).touchStarted
    ∧ (stepTouch b el s i e).touched = (stepTouch b' el s' i e).touched
    ∧ (stepTouch b el s i e).touchedApplied = (stepTouch b' el s' i e).touchedApplied := by
  have hoif : ∀ p, callOnlyIf b p = callOnlyIf b' p := by
    intro p; unfold callOnlyIf; rw [hoi]
  cases e with
  | touchstart p =>
      simp only [stepTouch, touchstartHandler, hoif p]
      by_cases hp : callOnlyIf b' p <;> simp [hp, h1, h2, h3]
  | touchend p =>
      simp only [stepTouch, touchendHandler, h1]
      by_cases hp : s'.touchStarted = true <;> simp [hp, h1, h2, h3]
  | touchmove =>
      simp only [stepTouch, hcm]
      by_cases hc : truthy b'.cancelOnMove <;> simp [hc, touchmoveHandler, h1, h2, h3]
  | timerFire =>
      simp only [stepTouch, deferredTouched, h1]
      by_cases hp : s'.touchStarted = true <;> simp [hp, h1, h2, h3]
  | click p =>
      simp [stepTouch, clickHandlerTouch, h1, h2, h3]

/-- Flag behaviour of a whole run does not depend on the configured
callback. -/
lemma runTouchFrom_flags_congr (b b' : Binding) (el : Nat)
    (hcm : b.cancelOnMove = b'.cancelOnMove) (hoi : b.onlyIf = b'.onlyIf) :
    ∀ (l : List Ev) (s s' : TapState) (i : Nat),
      s.touchStarted = s'.touchStarted → s.touched = s'.touched →
      s.touchedApplied = s'.touchedApplied →
      (runTouchFrom b el s i l).touchStarted = (runTouchFrom b' el s' i l).touchStarted
      ∧ (runTouchFrom b el s i l).touched = (runTouchFrom b' el s' i l).touched
      ∧ (runTouchFrom b el s i l).touchedApplied
          = (runTouchFrom b' el s' i l).touchedApplied := by
  intro l
  induction l with
  | nil => intro s s' i h1 h2 h3; exact ⟨h1, h2, h3⟩
  | cons e es ih =>
      intro s s' i h1 h2 h3
      rcases stepTouch_flags_congr b b' el hcm hoi s s' i e h1 h2 h3 with ⟨g1, g2, g3⟩
      simpa only [runTouchFrom] using
        ih (stepTouch b el s i e) (stepTouch b' el s' i e) (i + 1) g1 g2 g3

/-- Without a callable callback no touch-path step extends the invocation
log. -/
lemma runTouchFrom_no_callable (b : Binding) (el : Nat)
    (hcb : isFunc b.callback = false) :
    ∀ (l : List Ev) (s : TapState) (i : Nat),
      (runTouchFrom b el s i l).invocations = s.invocations := by
  intro l
  induction l with
  | nil => intro s i; rfl
  | cons e es ih =>
      intro s i
      have hstep : (stepTouch b el s i e).invocations = s.invocations := by
        cases e with
        | touchstart p => by_cases hp : callOnlyIf b p <;> simp [stepTouch, touchstartHandler, hp]
        | touchend p =>
            by_cases hts : s.touchStarted = true <;>
              simp [stepTouch, touchendHandler, fireCallback, hts, hcb]
        | touchmove => by_cases hc : truthy b.cancelOnMove <;> simp [stepTouch, touchmoveHandler, hc]
        | timerFire => by_cases hts : s.touchStarted = true <;> simp [stepTouch, deferredTouched, hts]
        | click p => simp [stepTouch, clickHandlerTouch]
      simp only [runTouchFrom]
      rw [ih (stepTouch b el s i e) (i + 1), hstep]

/-- Without a callable callback the fallback path registers no listener
at all, so every fallback step is the identity. -/
lemma runFallbackFrom_no_callable (b : Binding) (el : Nat)
    (hcb : isFunc b.callback = false) :
    ∀ (l : List Ev) (s : TapState) (i : Nat), runFallbackFrom b el s i l = s := by
  intro l
  induction l with
  | nil => intro s i; rfl
  | cons e es ih =>
      intro s i
      have hstep : stepFallback b el s i e = s := by
        cases e <;> simp [stepFallback, hcb]
      simp only [runFallbackFrom]
      rw [hstep, ih s (i + 1)]

/-- Each handler preserves the invariant that the `touched` class is only
present while `touch-started` is present. -/
lemma stepTouch_inv (b : Binding) (el : Nat) (s : TapState) (i : Nat) (e : Ev)
    (h : s.touched = true → s.touchStarted = true) :
    (stepTouch b el s i e).touched = true → (stepTouch b el s i e).touchStarted = true := by
  cases e with
  | touchstart p =>
      by_cases hp : callOnlyIf b p = true
      · simp [stepTouch, touchstartHandler, hp]
      · have hid : stepTouch b el s i (Ev.touchstart p) = s := by
          simp [stepTouch, touchstartHandler, hp]
        rw [hid]; exact h
  | touchend p =>
      by_cases hts : s.touchStarted = true
      · simp [stepTouch, touchendHandler, hts]
      · have hid : stepTouch b el s i (Ev.touchend p) = s := by
          simp [stepTouch, touchendHandler, hts]
        rw [hid]; exact h
  | touchmove =>
      by_cases hc : truthy b.cancelOnMove = true
      · simp [stepTouch, touchmoveHandler, hc]
      · have hid : stepTouch b el s i Ev.touchmove = s := by
          simp [stepTouch, hc]
        rw [hid]; exact h
  | timerFire =>
      by_cases hts : s.touchStarted = true
      · simp [stepTouch, deferredTouched, hts]
      · have hid : stepTouch b el s i Ev.timerFire = s := by
          simp [stepTouch, deferredTouched, hts]
        rw [hid]; exact h
  | click p => simp only [stepTouch, clickHandlerTouch]; exact h

/-- The invariant `touched → touch-started` holds along every run. -/
lemma runTouchFrom_inv (b : Binding) (el : Nat) :
    ∀ (l : List Ev) (s : TapState) (i : Nat),
      (s.touched = true → s.touchStarted = true) →
      (runTouchFrom b el s i l).touched = true →
      (runTouchFrom b el s i l).touchStarted = true := by
  intro l
  induction l with
  | nil => intro s i h; exact h
  | cons e es ih =>
      intro s i h
      simp only [runTouchFrom]
      exact ih (stepTouch b el s i e) (i + 1) (stepTouch_inv b el s i e h)

lemma runTouchFrom_cons (b : Binding) (el : Nat) (s : TapState) (i : Nat)
    (e : Ev) (es : List Ev) :
    runTouchFrom b el s i (e :: es) = runTouchFrom b el (stepTouch b el s i e) (i + 1) es :=
  rfl

/-! ### Claims -/

/-- Claim C1: on a tap-completion event (a `touchend` seen while
`touch-started` is present) the callback is invoked if and only if the
configured callback is a callable value and `onlyIf(element)` evaluates
truthy at invocation time — the guard is re-checked inside `fireCallback`
when firing, not only at touch-begin — and the invocation passes the
element together with the triggering event as the pair
`(element, originatingEvent)`. -/
theorem c1_callback_fire_iff :
    ∀ (b : Binding) (el evId : Nat) (p : Bool) (inv : List (Nat × Nat)),
      (fireCallback b el evId p inv = inv ++ [(el, evId)]
        ↔ isFunc b.callback = true ∧ callOnlyIf b p = true)
      ∧ (¬(isFunc b.callback = true ∧ callOnlyIf b p = true) →
          fireCallback b el evId p inv = inv)
      ∧ (∀ s : TapState, s.touchStarted = true →
          (touchendHandler b el evId p s).invocations
            = fireCallback b el evId p s.invocations) := by
  intro b el evId p inv
  by_cases hcond : isFunc b.callback = true ∧ callOnlyIf b p = true
  · have hfire : fireCallback b el evId p inv = inv ++ [(el, evId)] := by
      simp [fireCallback, hcond.1, hcond.2]
    refine ⟨⟨fun _ => hcond, fun _ => hfire⟩, fun hn => absurd hcond hn, ?_⟩
    intro s hs; simp [touchendHandler, hs]
  · have hskip : fireCallback b el evId p inv = inv := by
      unfold fireCallback
      rcases Decidable.not_and_iff_or_not.1 hcond with h | h
      · simp [Bool.of_not_eq_true h]
      · simp [Bool.of_not_eq_true h]
    refine ⟨⟨fun heq => ?_, fun hc => absurd hc hcond⟩, fun _ => hskip, ?_⟩
    · exfalso
      rw [hskip] at heq
      have := congrArg List.length heq
      simp at this
    · intro s hs; simp [touchendHandler, hs]

/-- Witness for C1 at a concrete binding: a callable callback with the
default (always-true) `onlyIf` fires exactly the pair
`(element, triggering event)`, and `touchendHandler` routes through
`fireCallback`. -/
theorem c1_callback_fire_iff_witness :
    fireCallback cbBinding 0 7 true [] = [] ++ [(0, 7)]
    ∧ (touchendHandler cbBinding 0 7 true
        { touchStarted := true, touched := false, invocations := [],
          prevented := [], touchedApplied := 0 }).invocations
        = fireCallback cbBinding 0 7 true
            ({ touchStarted := true, touched := false, invocations := [],
               prevented := [], touchedApplied := 0 } : TapState).invocations :=
  ⟨((c1_callback_fire_iff cbBinding 0 7 true []).1).mpr (by decide),
   (c1_callback_fire_iff cbBinding 0 7 true []).2.2 _ (by decide)⟩

/-- Claim C5: in every state reachable by a run of the touch-path
machine the `touched` flag being set implies the `touch-started` flag is
(still) set — so `touch-started` was set at some prior instant with no
intervening cancellation, since only `touchstart` sets it — and the two
clearing operations, tap completion (`touchend` with `touch-started`
present) and move-cancel (`touchmove` with the listener registered),
clear both flags together. -/
theorem c5_touched_implies_started :
    ∀ (b : Binding) (el : Nat) (es : List Ev),
      ((runTouch b el es).touched = true → (runTouch b el es).touchStarted = true)
      ∧ (∀ (s : TapState) (i : Nat) (p : Bool), s.touchStarted = true →
          (stepTouch b el s i (Ev.touchend p)).touchStarted = false
          ∧ (stepTouch b el s i (Ev.touchend p)).touched = false)
      ∧ (∀ (s : TapState) (i : Nat), truthy b.cancelOnMove = true →
          (stepTouch b el s i Ev.touchmove).touchStarted = false
          ∧ (stepTouch b el s i Ev.touchmove).touched = false) := by
  intro b el es
  refine ⟨?_, ?_, ?_⟩
  · exact runTouchFrom_inv b el es initState 0 (by simp [initState])
  · intro s i p h
    constructor <;> simp [stepTouch, touchendHandler, h]
  · intro s i h
    constructor <;> simp [stepTouch, touchmoveHandler, h]

/-- Witness for C5 on concrete runs and states: a long-press run keeps
the invariant, and both clearing operations clear both flags. -/
theorem c5_touched_implies_started_witness :
    (runTouch defaultBinding 0 [Ev.touchstart true, Ev.timerFire]).touchStarted = true
    ∧ (stepTouch defaultBinding 0
        { touchStarted := true, touched := true, invocations := [],
          prevented := [], touchedApplied := 1 } 5 (Ev.touchend true)).touched = false
    ∧ (stepTouch defaultBinding 0
        { touchStarted := true, touched := true, invocations := [],
          prevented := [], touchedApplied := 1 } 5 Ev.touchmove).touched = false :=
  ⟨(c5_touched_implies_started defaultBinding 0 [Ev.touchstart true, Ev.timerFire]).1
      (by decide),
   ((c5_touched_implies_started defaultBinding 0 []).2.1 _ 5 true (by decide)).2,
   ((c5_touched_implies_started defaultBinding 0 []).2.2 _ 5 (by decide)).2⟩

/-- Claim C9: on the touch-capable path the `click` handler calls
`event.preventDefault()` unconditionally — for every binding (whatever
`onlyIf`, the flag state, or the callback's callability), every click is
recorded as default-prevented and nothing else changes — and a `click`
listener is always among the registered listeners. -/
theorem c9_click_always_prevented :
    ∀ (b : Binding) (el : Nat) (s : TapState) (i : Nat) (q : Bool),
      (stepTouch b el s i (Ev.click q)).prevented = s.prevented ++ [i]
      ∧ (stepTouch b el s i (Ev.click q)).touchStarted = s.touchStarted
      ∧ (stepTouch b el s i (Ev.click q)).touched = s.touched
      ∧ (stepTouch b el s i (Ev.click q)).invocations = s.invocations
      ∧ ListenerKind.click ∈ tappableListeners true b := by
  intro b el s i q
  refine ⟨rfl, rfl, rfl, rfl, ?_⟩
  simp [tappableListeners]

/-- Claim C10: an `options` value that is neither a function nor an
object (e.g. `undefined`, a string, a number) leaves every default in
place — no callback, `cancelOnMove` truthy (`true`), `touchDelay` `0`,
the always-true default `onlyIf`, no selector — so on a touch-capable
runtime all four touch listeners are still attached and a `touchstart`
still sets the `touch-started` class, while on the fallback runtime no
click listener is attached. -/
theorem c10_unrecognised_options_default :
    ∀ (opts : JSOptions) (el : Nat) (p : Bool),
      typeofOptions opts ≠ "function" → typeofOptions opts ≠ "object" →
      tappableBinding opts = defaultBinding
      ∧ (tappableBinding opts).callback = FieldVal.undef
      ∧ truthy (tappableBinding opts).cancelOnMove = true
      ∧ (tappableBinding opts).touchDelay = FieldVal.jsNum 0
      ∧ (tappableBinding opts).onlyIf = OnlyIfVal.defaultFn
      ∧ (tappableBinding opts).selector = FieldVal.undef
      ∧ tappableListeners true (tappableBinding opts)
          = [ListenerKind.touchstart, ListenerKind.touchend, ListenerKind.click,
             ListenerKind.touchmove]
      ∧ tappableListeners false (tappableBinding opts) = []
      ∧ (runTouch (tappableBinding opts) el [Ev.touchstart p]).touchStarted = true := by
  intro opts el p hf ho
  have hb : tappableBinding opts = defaultBinding := by
    cases opts with
    | undef => rfl
    | func id => exact absurd rfl hf
    | obj o => exact absurd rfl ho
    | jsStr s => rfl
    | jsNum n => rfl
    | jsBool v => rfl
  rw [hb]
  refine ⟨rfl, rfl, rfl, rfl, rfl, rfl, rfl, rfl, ?_⟩
  simp [runTouch, runTouchFrom, stepTouch, touchstartHandler, callOnlyIf, defaultBinding]

/-- Witness for C10 at `options = undefined`. -/
theorem c10_unrecognised_options_default_witness :
    tappableBinding JSOptions.undef = defaultBinding
    ∧ (runTouch (tappableBinding JSOptions.undef) 0 [Ev.touchstart false]).touchStarted
        = true :=
  ⟨(c10_unrecognised_options_default JSOptions.undef 0 false (by decide) (by decide)).1,
   (c10_unrecognised_options_default JSOptions.undef 0 false (by decide)
      (by decide)).2.2.2.2.2.2.2.2⟩

/-- Claim C2: with `cancelOnMove` truthy, a touch-begin followed by a
touch-move followed by a touch-end — with the deferred `touched` action
free to fire at any points in between (`t1`, `t2`, `t3`) — never invokes
the callback and leaves neither the `touch-started` nor the `touched`
flag set. -/
theorem c2_move_cancels_tap :
    ∀ (b : Binding) (el : Nat) (p q : Bool) (t1 t2 t3 : List Ev),
      timersOnly t1 → timersOnly t2 → timersOnly t3 →
      truthy b.cancelOnMove = true →
      (runTouch b el ([Ev.touchstart p] ++ t1 ++ [Ev.touchmove] ++ t2
          ++ [Ev.touchend q] ++ t3)).invocations = []
      ∧ (runTouch b el ([Ev.touchstart p] ++ t1 ++ [Ev.touchmove] ++ t2
          ++ [Ev.touchend q] ++ t3)).touchStarted = false
      ∧ (runTouch b el ([Ev.touchstart p] ++ t1 ++ [Ev.touchmove] ++ t2
          ++ [Ev.touchend q] ++ t3)).touched = false := by
  intro b el p q t1 t2 t3 h1 h2 h3 hc
  have htail : noTouchstart (t2 ++ (Ev.touchend q :: t3)) := by
    intro e he pz
    rcases List.mem_append.1 he with he2 | hec
    · rw [h2 e he2]; simp
    · rcases List.mem_cons.1 hec with heq | he3
      · subst heq; simp
      · rw [h3 e he3]; simp
  have hL : [Ev.touchstart p] ++ t1 ++ [Ev.touchmove] ++ t2 ++ [Ev.touchend q] ++ t3
      = Ev.touchstart p :: (t1 ++ (Ev.touchmove :: (t2 ++ (Ev.touchend q :: t3)))) := by
    simp [List.append_assoc]
  have hmove : ∀ (s : TapState) (j : Nat), stepTouch b el s j Ev.touchmove
      = touchmoveHandler s := by
    intro s j; simp [stepTouch, hc]
  unfold runTouch
  rw [hL, runTouchFrom_cons,
      runTouchFrom_append b el t1 (Ev.touchmove :: (t2 ++ (Ev.touchend q :: t3)))
        (stepTouch b el initState 0 (Ev.touchstart p)) (0 + 1),
      runTouchFrom_cons, hmove]
  rcases runTouchFrom_noTouchstart b el (t2 ++ (Ev.touchend q :: t3)) htail
      (touchmoveHandler (runTouchFrom b el
        (stepTouch b el initState 0 (Ev.touchstart p)) (0 + 1) t1))
      (0 + 1 + t1.length + 1)
      (by simp [touchmoveHandler]) (by simp [touchmoveHandler]) with ⟨f1, f2, f3, _⟩
  refine ⟨?_, f1, f2⟩
  rw [f3]
  rcases runTouchFrom_timers b el t1 h1
      (stepTouch b el initState 0 (Ev.touchstart p)) (0 + 1) with ⟨_, k2, _, _⟩
  have hmh : (touchmoveHandler (runTouchFrom b el
      (stepTouch b el initState 0 (Ev.touchstart p)) (0 + 1) t1)).invocations
      = (runTouchFrom b el (stepTouch b el initState 0 (Ev.touchstart p))
          (0 + 1) t1).invocations := by
    simp [touchmoveHandler]
  rw [hmh, k2]
  by_cases hp : callOnlyIf b p = true <;>
    simp [stepTouch, touchstartHandler, hp, initState]

/-- Witness for C2 at a concrete binding and trace: begin, a deferred
firing, move, end — no invocation, both flags clear. -/
theorem c2_move_cancels_tap_witness :
    (runTouch cbBinding 0 ([Ev.touchstart true] ++ [Ev.timerFire] ++ [Ev.touchmove]
        ++ [] ++ [Ev.touchend true] ++ [])).invocations = []
    ∧ (runTouch cbBinding 0 ([Ev.touchstart true] ++ [Ev.timerFire] ++ [Ev.touchmove]
        ++ [] ++ [Ev.touchend true] ++ [])).touchStarted = false :=
  ⟨(c2_move_cancels_tap cbBinding 0 true true [Ev.timerFire] [] []
      (by decide) (by decide) (by decide) (by decide)).1,
   (c2_move_cancels_tap cbBinding 0 true true [Ev.timerFire] [] []
      (by decide) (by decide) (by decide) (by decide)).2.1⟩

/-- Claim C3: with `cancelOnMove` falsy, a touch-begin followed by a
touch-move followed by a touch-end — `onlyIf` passing at both calls and
the callback callable, deferred firings free to interleave — invokes the
callback exactly once: the `touchmove` listener is not registered (the
move step is the identity) and the `touch-started` flag survives the
move. -/
theorem c3_no_cancel_still_fires :
    ∀ (b : Binding) (el : Nat) (p q : Bool) (t1 t2 t3 : List Ev),
      timersOnly t1 → timersOnly t2 → timersOnly t3 →
      truthy b.cancelOnMove = false → isFunc b.callback = true →
      callOnlyIf b p = true → callOnlyIf b q = true →
      (runTouch b el ([Ev.touchstart p] ++ t1 ++ [Ev.touchmove] ++ t2
          ++ [Ev.touchend q] ++ t3)).invocations.length = 1
      ∧ (runTouch b el ([Ev.touchstart p] ++ t1 ++ [Ev.touchmove])).touchStarted
          = true := by
  intro b el p q t1 t2 t3 h1 h2 h3 hc hcb hp hq
  have hmove : ∀ (s : TapState) (j : Nat), stepTouch b el s j Ev.touchmove = s := by
    intro s j; simp [stepTouch, hc]
  have hs1ts : (stepTouch b el initState 0 (Ev.touchstart p)).touchStarted = true := by
    simp [stepTouch, touchstartHandler, hp]
  have hs1inv : (stepTouch b el initState 0 (Ev.touchstart p)).invocations = [] := by
    simp [stepTouch, touchstartHandler, hp, initState]
  rcases runTouchFrom_timers b el t1 h1
      (stepTouch b el initState 0 (Ev.touchstart p)) (0 + 1) with ⟨k1, k2, _, _⟩
  constructor
  · have hL : [Ev.touchstart p] ++ t1 ++ [Ev.touchmove] ++ t2 ++ [Ev.touchend q] ++ t3
        = Ev.touchstart p :: (t1 ++ (Ev.touchmove :: (t2 ++ (Ev.touchend q :: t3)))) := by
      simp [List.append_assoc]
    unfold runTouch
    rw [hL, runTouchFrom_cons,
        runTouchFrom_append b el t1 (Ev.touchmove :: (t2 ++ (Ev.touchend q :: t3)))
          (stepTouch b el initState 0 (Ev.touchstart p)) (0 + 1),
        runTouchFrom_cons, hmove,
        runTouchFrom_append b el t2 (Ev.touchend q :: t3)
          (runTouchFrom b el (stepTouch b el initState 0 (Ev.touchstart p)) (0 + 1) t1)
          (0 + 1 + t1.length + 1),
        runTouchFrom_cons]
    rcases runTouchFrom_timers b el t2 h2
        (runTouchFrom b el (stepTouch b el initState 0 (Ev.touchstart p)) (0 + 1) t1)
        (0 + 1 + t1.length + 1) with ⟨k1t2, k2t2, _, _⟩
    rcases runTouchFrom_timers b el t3 h3
        (stepTouch b el
          (runTouchFrom b el
            (runTouchFrom b el (stepTouch b el initState 0 (Ev.touchstart p)) (0 + 1) t1)
            (0 + 1 + t1.length + 1) t2)
          (0 + 1 + t1.length + 1 + t2.length) (Ev.touchend q))
        (0 + 1 + t1.length + 1 + t2.length + 1) with ⟨_, k2t3, _, _⟩
    rw [k2t3]
    have hm2ts : (runTouchFrom b el
        (runTouchFrom b el (stepTouch b el initState 0 (Ev.touchstart p)) (0 + 1) t1)
        (0 + 1 + t1.length + 1) t2).touchStarted = true := by
      rw [k1t2, k1, hs1ts]
    have hm2inv : (runTouchFrom b el
        (runTouchFrom b el (stepTouch b el initState 0 (Ev.touchstart p)) (0 + 1) t1)
        (0 + 1 + t1.length + 1) t2).invocations = [] := by
      rw [k2t2, k2, hs1inv]
    set M2 := runTouchFrom b el
        (runTouchFrom b el (stepTouch b el initState 0 (Ev.touchstart p)) (0 + 1) t1)
        (0 + 1 + t1.length + 1) t2 with hM2
    simp only [stepTouch, touchendHandler]
    rw [if_pos hm2ts]
    simp [fireCallback, hcb, hq, hm2inv]
  · have hL2 : [Ev.touchstart p] ++ t1 ++ [Ev.touchmove]
        = Ev.touchstart p :: (t1 ++ [Ev.touchmove]) := by
      simp [List.append_assoc]
    unfold runTouch
    rw [hL2, runTouchFrom_cons,
        runTouchFrom_append b el t1 [Ev.touchmove]
          (stepTouch b el initState 0 (Ev.touchstart p)) (0 + 1),
        runTouchFrom_cons, hmove]
    have : runTouchFrom b el
        (runTouchFrom b el (stepTouch b el initState 0 (Ev.touchstart p)) (0 + 1) t1)
        (0 + 1 + t1.length + 1) [] = runTouchFrom b el
        (stepTouch b el initState 0 (Ev.touchstart p)) (0 + 1) t1 := rfl
    rw [this, k1, hs1ts]

/-- Witness for C3: begin, deferred firing, move, end with
`cancelOnMove: false` — exactly one invocation, `touch-started` survives
the move. -/
theorem c3_no_cancel_still_fires_witness :
    (runTouch cbBindingKeepMove 0 ([Ev.touchstart true] ++ [Ev.timerFire]
        ++ [Ev.touchmove] ++ [] ++ [Ev.touchend true] ++ [])).invocations.length = 1
    ∧ (runTouch cbBindingKeepMove 0 ([Ev.touchstart true] ++ [Ev.timerFire]
        ++ [Ev.touchmove])).touchStarted = true :=
  ⟨(c3_no_cancel_still_fires cbBindingKeepMove 0 true true [Ev.timerFire] [] []
      (by decide) (by decide) (by decide) (by decide) (by decide) (by decide)
      (by decide)).1,
   (c3_no_cancel_still_fires cbBindingKeepMove 0 true true [Ev.timerFire] [] []
      (by decide) (by decide) (by decide) (by decide) (by decide) (by decide)
      (by decide)).2⟩

/-- Claim C4: (a) a touch-end before the deferred `touched` action fires
invokes the callback exactly once and never applies the `touched` state;
(b) a touch held past `touchDelay` — the deferred action firing while
`touch-started` is still set — applies `touched` at least once before
release; (c) the deferred action is a no-op whenever `touch-started` has
already been cleared.  (The callback being callable and `onlyIf` passing
are the firing preconditions of §4.1 of the spec.) -/
theorem c4_touch_delay_behaviour :
    ∀ (b : Binding) (el : Nat) (p q : Bool) (t : List Ev),
      timersOnly t →
      isFunc b.callback = true → callOnlyIf b p = true → callOnlyIf b q = true →
      ((runTouch b el ([Ev.touchstart p, Ev.touchend q] ++ t)).invocations.length = 1
        ∧ (runTouch b el ([Ev.touchstart p, Ev.touchend q] ++ t)).touchedApplied = 0)
      ∧ ((runTouch b el [Ev.touchstart p, Ev.timerFire]).touched = true
        ∧ (runTouch b el [Ev.touchstart p, Ev.timerFire, Ev.touchend q]).touchedApplied = 1
        ∧ (runTouch b el
            [Ev.touchstart p, Ev.timerFire, Ev.touchend q]).invocations.length = 1)
      ∧ (∀ s : TapState, s.touchStarted = false → deferredTouched s = s) := by
  intro b el p q t ht hcb hp hq
  have h2ts : (stepTouch b el (stepTouch b el initState 0 (Ev.touchstart p)) (0 + 1)
      (Ev.touchend q)).touchStarted = false := by
    simp [stepTouch, touchstartHandler, touchendHandler, hp, initState]
  have h2inv : (stepTouch b el (stepTouch b el initState 0 (Ev.touchstart p)) (0 + 1)
      (Ev.touchend q)).invocations = [(el, 0 + 1)] := by
    simp [stepTouch, touchstartHandler, touchendHandler, hp, initState,
      fireCallback, hcb, hq]
  have h2ta : (stepTouch b el (stepTouch b el initState 0 (Ev.touchstart p)) (0 + 1)
      (Ev.touchend q)).touchedApplied = 0 := by
    simp [stepTouch, touchstartHandler, touchendHandler, hp, initState]
  refine ⟨?_, ⟨?_, ?_, ?_⟩, ?_⟩
  · have hL : [Ev.touchstart p, Ev.touchend q] ++ t
        = Ev.touchstart p :: Ev.touchend q :: t := rfl
    unfold runTouch
    rw [hL, runTouchFrom_cons, runTouchFrom_cons]
    rcases runTouchFrom_timers b el t ht
        (stepTouch b el (stepTouch b el initState 0 (Ev.touchstart p)) (0 + 1)
          (Ev.touchend q)) (0 + 1 + 1) with ⟨_, k2, _, k4⟩
    refine ⟨?_, ?_⟩
    · rw [k2, h2inv]; rfl
    · rw [(k4 h2ts).2, h2ta]
  · simp [runTouch, runTouchFrom, stepTouch, touchstartHandler, hp,
      deferredTouched, initState]
  · simp [runTouch, runTouchFrom, stepTouch, touchstartHandler, hp,
      deferredTouched, touchendHandler, initState]
  · simp [runTouch, runTouchFrom, stepTouch, touchstartHandler, hp,
      deferredTouched, touchendHandler, initState, fireCallback, hcb, hq]
  · intro s h; simp [deferredTouched, h]

/-- Witness for C4 at a concrete binding: quick tap fires once without
`touched`; long press applies `touched`; a stale deferred action is a
no-op. -/
theorem c4_touch_delay_behaviour_witness :
    (runTouch cbBinding 0 ([Ev.touchstart true, Ev.touchend true]
        ++ [Ev.timerFire])).touchedApplied = 0
    ∧ (runTouch cbBinding 0 [Ev.touchstart true, Ev.timerFire]).touched = true
    ∧ deferredTouched initState = initState :=
  ⟨(c4_touch_delay_behaviour cbBinding 0 true true [Ev.timerFire]
      (by decide) (by decide) (by decide) (by decide)).1.2,
   (c4_touch_delay_behaviour cbBinding 0 true true [Ev.timerFire]
      (by decide) (by decide) (by decide) (by decide)).2.1.1,
   (c4_touch_delay_behaviour cbBinding 0 true true [Ev.timerFire]
      (by decide) (by decide) (by decide) (by decide)).2.2 initState (by decide)⟩

/-- Claim C6: if `onlyIf(target)` returns false at touch-begin, then for
the rest of that touch sequence (any events other than a new
touch-begin, with arbitrary later `onlyIf` results) no state flag is
ever set and the callback never fires.  Quantifying over every
`touchstart`-free continuation covers every intermediate instant, since
each prefix is itself such a continuation. -/
theorem c6_onlyIf_false_inert :
    ∀ (b : Binding) (el : Nat) (p : Bool) (rest : List Ev),
      callOnlyIf b p = false → noTouchstart rest →
      (runTouch b el (Ev.touchstart p :: rest)).touchStarted = false
      ∧ (runTouch b el (Ev.touchstart p :: rest)).touched = false
      ∧ (runTouch b el (Ev.touchstart p :: rest)).invocations = [] := by
  intro b el p rest hp hrest
  have hs1 : stepTouch b el initState 0 (Ev.touchstart p) = initState := by
    simp [stepTouch, touchstartHandler, hp]
  unfold runTouch
  rw [runTouchFrom_cons, hs1]
  rcases runTouchFrom_noTouchstart b el rest hrest initState (0 + 1)
      (by simp [initState]) (by simp [initState]) with ⟨f1, f2, f3, _⟩
  exact ⟨f1, f2, by rw [f3]; rfl⟩

/-- Witness for C6: a custom `onlyIf` that rejects at touch-begin keeps
the element inert even though it would pass at the later touch-end. -/
theorem c6_onlyIf_false_inert_witness :
    (runTouch { cbBinding with onlyIf := OnlyIfVal.custom (FieldVal.func 1) } 0
        (Ev.touchstart false :: [Ev.timerFire, Ev.touchend true])).touchStarted = false
    ∧ (runTouch { cbBinding with onlyIf := OnlyIfVal.custom (FieldVal.func 1) } 0
        (Ev.touchstart false :: [Ev.timerFire, Ev.touchend true])).invocations = [] :=
  ⟨(c6_onlyIf_false_inert { cbBinding with onlyIf := OnlyIfVal.custom (FieldVal.func 1) }
      0 false [Ev.timerFire, Ev.touchend true] (by decide) (by decide)).1,
   (c6_onlyIf_false_inert { cbBinding with onlyIf := OnlyIfVal.custom (FieldVal.func 1) }
      0 false [Ev.timerFire, Ev.touchend true] (by decide) (by decide)).2.2⟩

/-- Claim C7: with an absent or non-callable callback no firing ever
occurs on either path; on the touch-capable path the
`touch-started`/`touched` toggling over any event sequence is exactly
what it would be with a callable callback; the fallback path registers
no listener at all (every fallback step is the identity).  All the
embedded operations are total, matching the source's raising of no
exception: the only validation is the `typeof` check inside
`fireCallback`. -/
theorem c7_no_callable_callback :
    ∀ (b : Binding) (el : Nat) (es : List Ev) (cb2 : FieldVal),
      isFunc b.callback = false → isFunc cb2 = true →
      (runTouch b el es).invocations = []
      ∧ runFallback b el es = initState
      ∧ ((runTouch { b with callback := cb2 } el es).touchStarted
            = (runTouch b el es).touchStarted
        ∧ (runTouch { b with callback := cb2 } el es).touched
            = (runTouch b el es).touched
        ∧ (runTouch { b with callback := cb2 } el es).touchedApplied
            = (runTouch b el es).touchedApplied)
      ∧ tappableListeners false b = [] := by
  intro b el es cb2 hcb hcb2
  refine ⟨?_, ?_, ?_, ?_⟩
  · exact runTouchFrom_no_callable b el hcb es initState 0
  · exact runFallbackFrom_no_callable b el hcb es initState 0
  · exact runTouchFrom_flags_congr { b with callback := cb2 } b el rfl rfl es
      initState initState 0 rfl rfl rfl
  · simp [tappableListeners, hcb]

/-- Witness for C7: a number as `callback` never fires but still toggles
state like a function would, and registers nothing on the fallback
path. -/
theorem c7_no_callable_callback_witness :
    (runTouch { defaultBinding with callback := FieldVal.jsNum 3 } 0
        [Ev.touchstart true, Ev.touchend true]).invocations = []
    ∧ tappableListeners false { defaultBinding with callback := FieldVal.jsNum 3 } = []
    ∧ (runTouch { { defaultBinding with callback := FieldVal.jsNum 3 } with
          callback := FieldVal.func 0 } 0
        [Ev.touchstart true, Ev.touchend true]).touchStarted
      = (runTouch { defaultBinding with callback := FieldVal.jsNum 3 } 0
        [Ev.touchstart true, Ev.touchend true]).touchStarted :=
  ⟨(c7_no_callable_callback { defaultBinding with callback := FieldVal.jsNum 3 } 0
      [Ev.touchstart true, Ev.touchend true] (FieldVal.func 0)
      (by decide) (by decide)).1,
   (c7_no_callable_callback { defaultBinding with callback := FieldVal.jsNum 3 } 0
      [Ev.touchstart true, Ev.touchend true] (FieldVal.func 0)
      (by decide) (by decide)).2.2.2,
   (c7_no_callable_callback { defaultBinding with callback := FieldVal.jsNum 3 } 0
      [Ev.touchstart true, Ev.touchend true] (FieldVal.func 0)
      (by decide) (by decide)).2.2.1.1⟩

/-- Claim C8: on a non-touch-capable runtime with a callable callback
exactly one listener — a `click` listener — is registered; a click
invokes the callback exactly once, with `(element, event)`, precisely
when `onlyIf` passes at click time; and no step of this path ever sets
or clears the `touch-started` or `touched` flag. -/
theorem c8_fallback_click :
    ∀ (b : Binding) (el : Nat) (s : TapState) (i : Nat) (q : Bool),
      isFunc b.callback = true →
      tappableListeners false b = [ListenerKind.click]
      ∧ ((stepFallback b el s i (Ev.click q)).invocations = s.invocations ++ [(el, i)]
          ↔ callOnlyIf b q = true)
      ∧ (callOnlyIf b q = false →
          (stepFallback b el s i (Ev.click q)).invocations = s.invocations)
      ∧ (∀ e : Ev, (stepFallback b el s i e).touchStarted = s.touchStarted
          ∧ (stepFallback b el s i e).touched = s.touched) := by
  intro b el s i q hcb
  refine ⟨?_, ?_, ?_, ?_⟩
  · simp [tappableListeners, hcb]
  · constructor
    · intro heq
      by_cases hqv : callOnlyIf b q = true
      · exact hqv
      · exfalso
        have hid : stepFallback b el s i (Ev.click q) = s := by
          simp [stepFallback, hcb, clickHandlerFallback, hqv]
        rw [hid] at heq
        have := congrArg List.length heq
        simp at this
    · intro hqv
      simp [stepFallback, hcb, clickHandlerFallback, hqv]
  · intro hqv
    simp [stepFallback, hcb, clickHandlerFallback, hqv]
  · intro e
    cases e with
    | touchstart r => exact ⟨rfl, rfl⟩
    | touchend r => exact ⟨rfl, rfl⟩
    | touchmove => exact ⟨rfl, rfl⟩
    | timerFire => exact ⟨rfl, rfl⟩
    | click r =>
        by_cases hr : callOnlyIf b r = true <;>
          simp [stepFallback, hcb, clickHandlerFallback, hr]

/-- Witness for C8: with the default always-true `onlyIf` a click fires
once with the element and the event, and only the `click` listener is
registered. -/
theorem c8_fallback_click_witness :
    tappableListeners false cbBinding = [ListenerKind.click]
    ∧ (stepFallback cbBinding 0 initState 4 (Ev.click true)).invocations
        = initState.invocations ++ [(0, 4)] :=
  ⟨(c8_fallback_click cbBinding 0 initState 4 true (by decide)).1,
   ((c8_fallback_click cbBinding 0 initState 4 true (by decide)).2.1).mpr (by decide)⟩

end Tappable
